import Mathlib

/-!
Shallow embedding of the release-selection program (`main.go` of eqemu-pack/server).

The core is `run`, modelling the Go function `run` (the selector loop over the
release feed, lines 44-111 of `main.go`): a single pass over the feed with four
pieces of state (`latestUnstableRelease`, `latestStableRelease`,
`fallbackRelease`, `lastReleasePublishDate`).  Times are modelled as `Int`
nanoseconds (Go `time.Time` / `time.Duration`); the Go zero value of
`time.Time` is modelled by the integer `0`, matching `IsZero`.  The two
external collaborators are parameters: `parse : String → Option Int` models
`time.Parse (RFC3339)` (`none` = parse error) and
`oracle : String → Option Nat` models the `errorCount` HTTP query
(`none` = transport/decode failure).  The state additionally carries
`oracleQueries`, a ghost log of the oracle queries issued (the queried release
together with the string passed), used to state the temporal claims; it
influences nothing.

`errorCount` models the pure counting core of the Go `errorCount` function
(lines 166-183): counting payload rows with distinct `server_name`, via a
seen-set (the Go `servers` map is modelled by the list of its keys).
-/

set_option autoImplicit false
set_option linter.unnecessarySeqFocus false
set_option linter.unnecessarySimpa false

namespace EqemuPack

/-- Nanoseconds in one day: Go `24 * time.Hour` as a `time.Duration`. -/
def dayNs : Int := 24 * 60 * 60 * 1000000000

/-- Whether the character list `pat` occurs at the head of `s`
(helper for Go `strings.Contains`). -/
def strBegins : List Char → List Char → Bool
  | _, [] => true
  | [], _ :: _ => false
  | c :: s, d :: pat => c == d && strBegins s pat

/-- Whether the character list `pat` occurs anywhere in `s`. -/
def strHas : List Char → List Char → Bool
  | [], pat => pat.isEmpty
  | s@(_ :: rest), pat => strBegins s pat || strHas rest pat

/-- Go `strings.Contains s pat`. -/
def goContains (s pat : String) : Bool :=
  strHas s.data pat.data

/-- Go `strings.ReplaceAll tag "v" ""`: with a one-character pattern this
removes every occurrence of the character `v`. -/
def stripAllV (s : String) : String :=
  String.mk (s.data.filter (fun c => c != 'v'))

/-- The release record decoded from the feed (Go struct `releaseJson`). -/
structure releaseJson where
  name : String
  tagName : String
  publishedAt : String
  prerelease : Bool
  body : String
deriving DecidableEq, Repr

/-- One row of the crash-report payload (Go struct `errorCountJson`). -/
structure errorCountJson where
  id : Int
  serverName : String
  serverShortName : String
  serverVersion : String
deriving DecidableEq, Repr

/-- The error outcomes of `run` relevant to the selector core.
`nilDereference` models the Go nil-pointer panic that would occur at
`latestUnstableRelease.TagName` (line 117) were the pointer still nil. -/
inductive RunError where
  | malformedTimestamp
  | oracleUnavailable
  | noReleasesFound
  | nilDereference
deriving DecidableEq, Repr

/-- The pair of tags the program persists (`latest.txt` / `stable.txt`). -/
structure SelectionResult where
  unstableTag : String
  stableTag : String
deriving DecidableEq, Repr

/-- The selector's loop state: the four Go loop variables, plus the ghost log
`oracleQueries` of issued oracle queries (release, string passed). -/
structure ScanState where
  latestUnstableRelease : Option releaseJson
  latestStableRelease : Option releaseJson
  fallbackRelease : Option releaseJson
  lastReleasePublishDate : Int
  oracleQueries : List (releaseJson × String)
deriving DecidableEq, Repr

/-- Initial state: all pointers nil, `lastReleasePublishDate` the zero time. -/
def initState : ScanState :=
  { latestUnstableRelease := none
    latestStableRelease := none
    fallbackRelease := none
    lastReleasePublishDate := 0
    oracleQueries := [] }

/-- First-write-wins combination of optional values (models a Go pointer that
is assigned only when still nil). -/
def keepFirst {α : Type} (a b : Option α) : Option α :=
  match a with
  | some x => some x
  | none => b

/-- Go lines 54-56: `if latestUnstableRelease == nil { latestUnstableRelease = release }`. -/
def captureUnstable (release : releaseJson) (st : ScanState) : ScanState :=
  if st.latestUnstableRelease.isNone then
    { st with latestUnstableRelease := some release }
  else st

/-- Go lines 70-74: capture the fallback when still nil and the release is
more than 30 days old. -/
def captureFallback (now publishedAt : Int) (release : releaseJson) (st : ScanState) : ScanState :=
  if st.fallbackRelease.isNone ∧ now - publishedAt > 30 * dayNs then
    { st with fallbackRelease := some release }
  else st

/-- Go line 66 / line 76: `lastReleasePublishDate = publishedAt`. -/
def setLast (publishedAt : Int) (st : ScanState) : ScanState :=
  { st with lastReleasePublishDate := publishedAt }

/-- Ghost: record that the oracle is queried with `tag` for `release`. -/
def logQuery (release : releaseJson) (tag : String) (st : ScanState) : ScanState :=
  { st with oracleQueries := st.oracleQueries ++ [(release, tag)] }

/-- Outcome of one iteration of the loop body: continue, break, or return
with an error (the carried state is the loop state at that point). -/
inductive StepOut where
  | next (st : ScanState)
  | stop (st : ScanState)
  | fail (st : ScanState) (e : RunError)
deriving DecidableEq, Repr

/-- The state carried by a `StepOut`. -/
def StepOut.state : StepOut → ScanState
  | .next st => st
  | .stop st => st
  | .fail st _ => st

/-- One iteration of the Go loop body (lines 49-103). -/
def runStep (parse : String → Option Int) (now : Int) (oracle : String → Option Nat)
    (release : releaseJson) (st : ScanState) : StepOut :=
  if release.prerelease then .next st
  else
    let st1 := captureUnstable release st
    match parse release.publishedAt with
    | none => .fail st1 .malformedTimestamp
    | some publishedAt =>
      if st1.lastReleasePublishDate ≠ 0 ∧
          st1.lastReleasePublishDate - 3 * dayNs < publishedAt then
        .next (setLast publishedAt st1)
      else
        let st3 := setLast publishedAt (captureFallback now publishedAt release st1)
        if now - publishedAt < 7 * dayNs then .next st3
        else if !goContains release.body "Fix" then .next st3
        else
          let releaseTag := stripAllV release.tagName
          let st4 := logQuery release releaseTag st3
          match oracle releaseTag with
          | none => .fail st4 .oracleUnavailable
          | some errCount =>
            if 0 < errCount then .next st4
            else .stop { st4 with latestStableRelease := some release }

/-- The Go `for` loop over the feed, threading the state; the second component
is `some e` when the loop aborted the run with error `e`. -/
def runScan (parse : String → Option Int) (now : Int) (oracle : String → Option Nat) :
    List releaseJson → ScanState → ScanState × Option RunError
  | [], st => (st, none)
  | release :: rest, st =>
    match runStep parse now oracle release st with
    | .next st' => runScan parse now oracle rest st'
    | .stop st' => (st', none)
    | .fail st' e => (st', some e)

/-- Go lines 105-127 after the loop: substitute the fallback, fail with
`noReleasesFound` when both are nil, then read the two tags (a nil
`latestUnstableRelease` at that point would be the modelled panic). -/
def finishRun (st : ScanState) : Except RunError SelectionResult :=
  match (match st.latestStableRelease with
         | some r => some r
         | none => st.fallbackRelease : Option releaseJson) with
  | none => .error .noReleasesFound
  | some stable =>
    match st.latestUnstableRelease with
    | none => .error .nilDereference
    | some unstable => .ok { unstableTag := unstable.tagName, stableTag := stable.tagName }

/-- The selector core of the Go `run` function: scan the (already fetched)
feed, then produce the selection result. -/
def run (parse : String → Option Int) (now : Int) (oracle : String → Option Nat)
    (releases : List releaseJson) : Except RunError SelectionResult :=
  match runScan parse now oracle releases initState with
  | (_, some e) => .error e
  | (st, none) => finishRun st

/-- The seen-set loop of the Go `errorCount` function (lines 174-180); the Go
map `servers` is modelled by the list of its keys. -/
def errorCountLoop : List errorCountJson → List String → Nat → Nat
  | [], _, count => count
  | payload :: rest, servers, count =>
    if payload.serverName ∈ servers then errorCountLoop rest servers count
    else errorCountLoop rest (payload.serverName :: servers) (count + 1)

/-- The pure counting core of Go `errorCount` (lines 166-183), applied to the
decoded payload rows. -/
def errorCount (payloads : List errorCountJson) : Nat :=
  errorCountLoop payloads [] 0

/-- Variant loop body for the refinement claim: the two updates of
`lastReleasePublishDate` are replaced by a single unconditional update, once
per non-prerelease release visited, using that release's parsed `publishedAt`. -/
def runStepOnce (parse : String → Option Int) (now : Int) (oracle : String → Option Nat)
    (release : releaseJson) (st : ScanState) : StepOut :=
  if release.prerelease then .next st
  else
    let st1 := captureUnstable release st
    match parse release.publishedAt with
    | none => .fail st1 .malformedTimestamp
    | some publishedAt =>
      let prevLast := st1.lastReleasePublishDate
      let st2 := setLast publishedAt st1
      if prevLast ≠ 0 ∧ prevLast - 3 * dayNs < publishedAt then
        .next st2
      else
        let st3 := captureFallback now publishedAt release st2
        if now - publishedAt < 7 * dayNs then .next st3
        else if !goContains release.body "Fix" then .next st3
        else
          let releaseTag := stripAllV release.tagName
          let st4 := logQuery release releaseTag st3
          match oracle releaseTag with
          | none => .fail st4 .oracleUnavailable
          | some errCount =>
            if 0 < errCount then .next st4
            else .stop { st4 with latestStableRelease := some release }

/-- The loop using the single-update body. -/
def runScanOnce (parse : String → Option Int) (now : Int) (oracle : String → Option Nat) :
    List releaseJson → ScanState → ScanState × Option RunError
  | [], st => (st, none)
  | release :: rest, st =>
    match runStepOnce parse now oracle release st with
    | .next st' => runScanOnce parse now oracle rest st'
    | .stop st' => (st', none)
    | .fail st' e => (st', some e)

/-- The selector with the single-update loop body. -/
def runOnce (parse : String → Option Int) (now : Int) (oracle : String → Option Nat)
    (releases : List releaseJson) : Except RunError SelectionResult :=
  match runScanOnce parse now oracle releases initState with
  | (_, some e) => .error e
  | (st, none) => finishRun st

/-- Release failing at least one of the state-free filters 1 (prerelease),
6 (freshness), 7 (changelog), 8 (oracle, answering with a positive count). -/
def fails1678 (parse : String → Option Int) (now : Int) (oracle : String → Option Nat)
    (r : releaseJson) : Bool :=
  r.prerelease ||
    match parse r.publishedAt with
    | none => false
    | some t =>
      decide (now - t < 7 * dayNs) || !goContains r.body "Fix" ||
        match oracle (stripAllV r.tagName) with
        | none => false
        | some c => decide (0 < c)

/-- The release the fallback capture actually fires on: the first release
that is a non-prerelease, not skipped by the spacing filter, and more than
30 days old (the spacing state threaded exactly as in the loop). -/
def firstFallback (parse : String → Option Int) (now : Int) :
    List releaseJson → Int → Option releaseJson
  | [], _ => none
  | r :: rest, last =>
    if r.prerelease then firstFallback parse now rest last
    else
      match parse r.publishedAt with
      | none => none
      | some t =>
        if last ≠ 0 ∧ last - 3 * dayNs < t then firstFallback parse now rest t
        else if now - t > 30 * dayNs then some r
        else firstFallback parse now rest t

/-- Modelled from the claim's words (for comparison with the code): the first
release of the feed whose age exceeds 30 days, regardless of the prerelease
flag and of the spacing filter. -/
def firstOlderThan30 (parse : String → Option Int) (now : Int)
    (rs : List releaseJson) : Option releaseJson :=
  rs.find? fun r =>
    match parse r.publishedAt with
    | some t => decide (now - t > 30 * dayNs)
    | none => false

/-! Concrete fixtures used by witnesses and counterexamples. -/

/-- A concrete `now` for the fixtures. -/
def nowC : Int := 1000 * dayNs

/-- Publish instant 40 days before `nowC`. -/
def t40 : Int := nowC - 40 * dayNs

/-- Publish instant 5 days before `nowC`. -/
def t5 : Int := nowC - 5 * dayNs

/-- Publish instant 41 days before `nowC`. -/
def t41 : Int := nowC - 41 * dayNs

/-- Publish instant 39 days before `nowC`. -/
def t39 : Int := nowC - 39 * dayNs

/-- A concrete timestamp parser: a finite table, everything else fails. -/
def parseC : String → Option Int
  | "r40" => some t40
  | "p40" => some t40
  | "r5" => some t5
  | "g40" => some t40
  | "s41" => some t41
  | _ => none

/-- A concrete oracle reporting zero distinct crash sources everywhere. -/
def oracleC : String → Option Nat := fun _ => some 0

/-- A prerelease, 40 days old. -/
def relP : releaseJson :=
  { name := "p", tagName := "v3.0", publishedAt := "p40", prerelease := true, body := "Fix things" }

/-- A non-prerelease, 40 days old, changelog advertising no fix. -/
def relR : releaseJson :=
  { name := "r", tagName := "v2.9", publishedAt := "r40", prerelease := false, body := "no fixes here" }

/-- A prerelease whose timestamp does not parse. -/
def relPbad : releaseJson :=
  { name := "pb", tagName := "v4.0", publishedAt := "garbage", prerelease := true, body := "" }

/-- A non-prerelease whose timestamp does not parse. -/
def relBad : releaseJson :=
  { name := "b", tagName := "vB", publishedAt := "garbage", prerelease := false, body := "Fix" }

/-- A non-prerelease, 5 days old, changelog advertising a fix. -/
def rel5 : releaseJson :=
  { name := "f", tagName := "v1.1", publishedAt := "r5", prerelease := false, body := "Fix crash" }

/-- A non-prerelease, 40 days old, changelog advertising a fix. -/
def relGood : releaseJson :=
  { name := "g", tagName := "v1.2", publishedAt := "g40", prerelease := false, body := "Fix stuff" }

/-- A non-prerelease, 41 days old, used to exercise the spacing filter. -/
def relSkip : releaseJson :=
  { name := "s", tagName := "v9", publishedAt := "s41", prerelease := false, body := "Fix things" }

/-- A state whose `lastReleasePublishDate` is 39 days before `nowC`. -/
def stSkipW : ScanState :=
  { initState with lastReleasePublishDate := t39 }

end EqemuPack

namespace EqemuPack

/-! Basic lemmas about the state combinators. -/

@[simp] theorem keepFirst_none {α : Type} (b : Option α) : keepFirst none b = b := rfl

@[simp] theorem keepFirst_some {α : Type} (a : α) (b : Option α) :
    keepFirst (some a) b = some a := rfl

theorem keepFirst_of_some_right {α : Type} (a : Option α) (x : α) (b : Option α) :
    keepFirst (keepFirst a (some x)) b = keepFirst a (some x) := by
  cases a <;> rfl

theorem keepFirst_some_right_isSome {α : Type} (a : Option α) (x : α) :
    (keepFirst a (some x)).isSome = true := by
  cases a <;> rfl

@[simp] theorem captureUnstable_stable (r : releaseJson) (st : ScanState) :
    (captureUnstable r st).latestStableRelease = st.latestStableRelease := by
  unfold captureUnstable; split <;> rfl

@[simp] theorem captureUnstable_fallback (r : releaseJson) (st : ScanState) :
    (captureUnstable r st).fallbackRelease = st.fallbackRelease := by
  unfold captureUnstable; split <;> rfl

@[simp] theorem captureUnstable_last (r : releaseJson) (st : ScanState) :
    (captureUnstable r st).lastReleasePublishDate = st.lastReleasePublishDate := by
  unfold captureUnstable; split <;> rfl

@[simp] theorem captureUnstable_queries (r : releaseJson) (st : ScanState) :
    (captureUnstable r st).oracleQueries = st.oracleQueries := by
  unfold captureUnstable; split <;> rfl

@[simp] theorem captureUnstable_unstable (r : releaseJson) (st : ScanState) :
    (captureUnstable r st).latestUnstableRelease = keepFirst st.latestUnstableRelease (some r) := by
  cases h : st.latestUnstableRelease <;> simp [captureUnstable, keepFirst, h]

@[simp] theorem captureFallback_stable (n t : Int) (r : releaseJson) (st : ScanState) :
    (captureFallback n t r st).latestStableRelease = st.latestStableRelease := by
  unfold captureFallback; split <;> rfl

@[simp] theorem captureFallback_unstable (n t : Int) (r : releaseJson) (st : ScanState) :
    (captureFallback n t r st).latestUnstableRelease = st.latestUnstableRelease := by
  unfold captureFallback; split <;> rfl

@[simp] theorem captureFallback_last (n t : Int) (r : releaseJson) (st : ScanState) :
    (captureFallback n t r st).lastReleasePublishDate = st.lastReleasePublishDate := by
  unfold captureFallback; split <;> rfl

@[simp] theorem captureFallback_queries (n t : Int) (r : releaseJson) (st : ScanState) :
    (captureFallback n t r st).oracleQueries = st.oracleQueries := by
  unfold captureFallback; split <;> rfl

theorem captureFallback_fallback_of_some (n t : Int) (r : releaseJson) (st : ScanState)
    (f : releaseJson) (h : st.fallbackRelease = some f) :
    (captureFallback n t r st).fallbackRelease = some f := by
  simp [captureFallback, h]

theorem captureFallback_fallback_pos (n t : Int) (r : releaseJson) (st : ScanState)
    (h1 : st.fallbackRelease = none) (h2 : n - t > 30 * dayNs) :
    (captureFallback n t r st).fallbackRelease = some r := by
  simp [captureFallback, h1, h2]

theorem captureFallback_fallback_neg (n t : Int) (r : releaseJson) (st : ScanState)
    (h : ¬ n - t > 30 * dayNs) :
    (captureFallback n t r st).fallbackRelease = st.fallbackRelease := by
  simp [captureFallback, h]

@[simp] theorem setLast_unstable (t : Int) (st : ScanState) :
    (setLast t st).latestUnstableRelease = st.latestUnstableRelease := rfl

@[simp] theorem setLast_stable (t : Int) (st : ScanState) :
    (setLast t st).latestStableRelease = st.latestStableRelease := rfl

@[simp] theorem setLast_fallback (t : Int) (st : ScanState) :
    (setLast t st).fallbackRelease = st.fallbackRelease := rfl

@[simp] theorem setLast_last (t : Int) (st : ScanState) :
    (setLast t st).lastReleasePublishDate = t := rfl

@[simp] theorem setLast_queries (t : Int) (st : ScanState) :
    (setLast t st).oracleQueries = st.oracleQueries := rfl

@[simp] theorem logQuery_unstable (r : releaseJson) (s : String) (st : ScanState) :
    (logQuery r s st).latestUnstableRelease = st.latestUnstableRelease := rfl

@[simp] theorem logQuery_stable (r : releaseJson) (s : String) (st : ScanState) :
    (logQuery r s st).latestStableRelease = st.latestStableRelease := rfl

@[simp] theorem logQuery_fallback (r : releaseJson) (s : String) (st : ScanState) :
    (logQuery r s st).fallbackRelease = st.fallbackRelease := rfl

@[simp] theorem logQuery_last (r : releaseJson) (s : String) (st : ScanState) :
    (logQuery r s st).lastReleasePublishDate = st.lastReleasePublishDate := rfl

@[simp] theorem logQuery_queries (r : releaseJson) (s : String) (st : ScanState) :
    (logQuery r s st).oracleQueries = st.oracleQueries ++ [(r, s)] := rfl

/-! Branch equations for `runStep`, one per path through the loop body. -/

theorem runStep_prerelease (p : String → Option Int) (n : Int) (o : String → Option Nat)
    (r : releaseJson) (st : ScanState) (h : r.prerelease = true) :
    runStep p n o r st = .next st := by
  simp [runStep, h]

theorem runStep_parseFail (p : String → Option Int) (n : Int) (o : String → Option Nat)
    (r : releaseJson) (st : ScanState) (h1 : r.prerelease = false)
    (h2 : p r.publishedAt = none) :
    runStep p n o r st = .fail (captureUnstable r st) .malformedTimestamp := by
  simp [runStep, h1, h2]

theorem runStep_skip (p : String → Option Int) (n : Int) (o : String → Option Nat)
    (r : releaseJson) (st : ScanState) (t : Int) (h1 : r.prerelease = false)
    (h2 : p r.publishedAt = some t) (h3 : st.lastReleasePublishDate ≠ 0)
    (h4 : st.lastReleasePublishDate - 3 * dayNs < t) :
    runStep p n o r st = .next (setLast t (captureUnstable r st)) := by
  simp [runStep, h1, h2, h3, h4]

theorem runStep_fresh (p : String → Option Int) (n : Int) (o : String → Option Nat)
    (r : releaseJson) (st : ScanState) (t : Int) (h1 : r.prerelease = false)
    (h2 : p r.publishedAt = some t)
    (h3 : ¬ (st.lastReleasePublishDate ≠ 0 ∧ st.lastReleasePublishDate - 3 * dayNs < t))
    (h4 : n - t < 7 * dayNs) :
    runStep p n o r st = .next (setLast t (captureFallback n t r (captureUnstable r st))) := by
  simp only [runStep, h1, h2, Bool.false_eq_true, if_false, captureUnstable_last]
  rw [if_neg h3, if_pos h4]

theorem runStep_noFix (p : String → Option Int) (n : Int) (o : String → Option Nat)
    (r : releaseJson) (st : ScanState) (t : Int) (h1 : r.prerelease = false)
    (h2 : p r.publishedAt = some t)
    (h3 : ¬ (st.lastReleasePublishDate ≠ 0 ∧ st.lastReleasePublishDate - 3 * dayNs < t))
    (h4 : ¬ n - t < 7 * dayNs) (h5 : goContains r.body "Fix" = false) :
    runStep p n o r st = .next (setLast t (captureFallback n t r (captureUnstable r st))) := by
  simp only [runStep, h1, h2, Bool.false_eq_true, if_false, captureUnstable_last]
  rw [if_neg h3, if_neg h4]
  simp [h5]

theorem runStep_oracleFail (p : String → Option Int) (n : Int) (o : String → Option Nat)
    (r : releaseJson) (st : ScanState) (t : Int) (h1 : r.prerelease = false)
    (h2 : p r.publishedAt = some t)
    (h3 : ¬ (st.lastReleasePublishDate ≠ 0 ∧ st.lastReleasePublishDate - 3 * dayNs < t))
    (h4 : ¬ n - t < 7 * dayNs) (h5 : goContains r.body "Fix" = true)
    (h6 : o (stripAllV r.tagName) = none) :
    runStep p n o r st =
      .fail (logQuery r (stripAllV r.tagName)
        (setLast t (captureFallback n t r (captureUnstable r st)))) .oracleUnavailable := by
  simp only [runStep, h1, h2, Bool.false_eq_true, if_false, captureUnstable_last]
  rw [if_neg h3, if_neg h4]
  simp [h5, h6]

theorem runStep_oraclePos (p : String → Option Int) (n : Int) (o : String → Option Nat)
    (r : releaseJson) (st : ScanState) (t : Int) (c : Nat) (h1 : r.prerelease = false)
    (h2 : p r.publishedAt = some t)
    (h3 : ¬ (st.lastReleasePublishDate ≠ 0 ∧ st.lastReleasePublishDate - 3 * dayNs < t))
    (h4 : ¬ n - t < 7 * dayNs) (h5 : goContains r.body "Fix" = true)
    (h6 : o (stripAllV r.tagName) = some c) (h7 : 0 < c) :
    runStep p n o r st =
      .next (logQuery r (stripAllV r.tagName)
        (setLast t (captureFallback n t r (captureUnstable r st)))) := by
  simp only [runStep, h1, h2, Bool.false_eq_true, if_false, captureUnstable_last]
  rw [if_neg h3, if_neg h4]
  simp [h5, h6, h7]

theorem runStep_stable (p : String → Option Int) (n : Int) (o : String → Option Nat)
    (r : releaseJson) (st : ScanState) (t : Int) (c : Nat) (h1 : r.prerelease = false)
    (h2 : p r.publishedAt = some t)
    (h3 : ¬ (st.lastReleasePublishDate ≠ 0 ∧ st.lastReleasePublishDate - 3 * dayNs < t))
    (h4 : ¬ n - t < 7 * dayNs) (h5 : goContains r.body "Fix" = true)
    (h6 : o (stripAllV r.tagName) = some c) (h7 : ¬ 0 < c) :
    runStep p n o r st =
      .stop { logQuery r (stripAllV r.tagName)
                (setLast t (captureFallback n t r (captureUnstable r st))) with
              latestStableRelease := some r } := by
  simp only [runStep, h1, h2, Bool.false_eq_true, if_false, captureUnstable_last]
  rw [if_neg h3, if_neg h4]
  simp [h5, h6, h7]

end EqemuPack

namespace EqemuPack

/-- Exhaustive case analysis of one loop iteration: exactly one of the eight
paths through the body is taken. -/
theorem runStep_cases (p : String → Option Int) (n : Int) (o : String → Option Nat)
    (r : releaseJson) (st : ScanState) :
    (r.prerelease = true ∧ runStep p n o r st = .next st) ∨
    (r.prerelease = false ∧ p r.publishedAt = none ∧
      runStep p n o r st = .fail (captureUnstable r st) .malformedTimestamp) ∨
    (∃ t, r.prerelease = false ∧ p r.publishedAt = some t ∧
      st.lastReleasePublishDate ≠ 0 ∧ st.lastReleasePublishDate - 3 * dayNs < t ∧
      runStep p n o r st = .next (setLast t (captureUnstable r st))) ∨
    (∃ t, r.prerelease = false ∧ p r.publishedAt = some t ∧
      ¬ (st.lastReleasePublishDate ≠ 0 ∧ st.lastReleasePublishDate - 3 * dayNs < t) ∧
      n - t < 7 * dayNs ∧
      runStep p n o r st = .next (setLast t (captureFallback n t r (captureUnstable r st)))) ∨
    (∃ t, r.prerelease = false ∧ p r.publishedAt = some t ∧
      ¬ (st.lastReleasePublishDate ≠ 0 ∧ st.lastReleasePublishDate - 3 * dayNs < t) ∧
      ¬ n - t < 7 * dayNs ∧ goContains r.body "Fix" = false ∧
      runStep p n o r st = .next (setLast t (captureFallback n t r (captureUnstable r st)))) ∨
    (∃ t, r.prerelease = false ∧ p r.publishedAt = some t ∧
      ¬ (st.lastReleasePublishDate ≠ 0 ∧ st.lastReleasePublishDate - 3 * dayNs < t) ∧
      ¬ n - t < 7 * dayNs ∧ goContains r.body "Fix" = true ∧
      o (stripAllV r.tagName) = none ∧
      runStep p n o r st = .fail (logQuery r (stripAllV r.tagName)
        (setLast t (captureFallback n t r (captureUnstable r st)))) .oracleUnavailable) ∨
    (∃ t c, r.prerelease = false ∧ p r.publishedAt = some t ∧
      ¬ (st.lastReleasePublishDate ≠ 0 ∧ st.lastReleasePublishDate - 3 * dayNs < t) ∧
      ¬ n - t < 7 * dayNs ∧ goContains r.body "Fix" = true ∧
      o (stripAllV r.tagName) = some c ∧ 0 < c ∧
      runStep p n o r st = .next (logQuery r (stripAllV r.tagName)
        (setLast t (captureFallback n t r (captureUnstable r st))))) ∨
    (∃ t c, r.prerelease = false ∧ p r.publishedAt = some t ∧
      ¬ (st.lastReleasePublishDate ≠ 0 ∧ st.lastReleasePublishDate - 3 * dayNs < t) ∧
      ¬ n - t < 7 * dayNs ∧ goContains r.body "Fix" = true ∧
      o (stripAllV r.tagName) = some c ∧ ¬ 0 < c ∧
      runStep p n o r st = .stop { logQuery r (stripAllV r.tagName)
        (setLast t (captureFallback n t r (captureUnstable r st))) with
        latestStableRelease := some r }) := by
  by_cases hpre : r.prerelease = true
  · exact Or.inl ⟨hpre, runStep_prerelease p n o r st hpre⟩
  · rw [Bool.not_eq_true] at hpre
    cases hp : p r.publishedAt with
    | none =>
      exact Or.inr (Or.inl ⟨hpre, rfl, runStep_parseFail p n o r st hpre hp⟩)
    | some t =>
      by_cases hskip : st.lastReleasePublishDate ≠ 0 ∧ st.lastReleasePublishDate - 3 * dayNs < t
      · exact Or.inr (Or.inr (Or.inl ⟨t, hpre, rfl, hskip.1, hskip.2,
          runStep_skip p n o r st t hpre hp hskip.1 hskip.2⟩))
      · by_cases hfresh : n - t < 7 * dayNs
        · exact Or.inr (Or.inr (Or.inr (Or.inl ⟨t, hpre, rfl, hskip, hfresh,
            runStep_fresh p n o r st t hpre hp hskip hfresh⟩)))
        · by_cases hfix : goContains r.body "Fix" = true
          · cases ho : o (stripAllV r.tagName) with
            | none =>
              exact Or.inr (Or.inr (Or.inr (Or.inr (Or.inr (Or.inl ⟨t, hpre, rfl, hskip,
                hfresh, hfix, rfl, runStep_oracleFail p n o r st t hpre hp hskip hfresh hfix ho⟩)))))
            | some c =>
              by_cases hc : 0 < c
              · exact Or.inr (Or.inr (Or.inr (Or.inr (Or.inr (Or.inr (Or.inl ⟨t, c, hpre, rfl,
                  hskip, hfresh, hfix, rfl, hc,
                  runStep_oraclePos p n o r st t c hpre hp hskip hfresh hfix ho hc⟩))))))
              · exact Or.inr (Or.inr (Or.inr (Or.inr (Or.inr (Or.inr (Or.inr ⟨t, c, hpre, rfl,
                  hskip, hfresh, hfix, rfl, hc,
                  runStep_stable p n o r st t c hpre hp hskip hfresh hfix ho hc⟩))))))
          · rw [Bool.not_eq_true] at hfix
            exact Or.inr (Or.inr (Or.inr (Or.inr (Or.inl ⟨t, hpre, rfl, hskip, hfresh, hfix,
              runStep_noFix p n o r st t hpre hp hskip hfresh hfix⟩))))

end EqemuPack

namespace EqemuPack

/-- Facts available when an iteration continues to the next release. -/
theorem runStep_next_facts (p : String → Option Int) (n : Int) (o : String → Option Nat)
    (r : releaseJson) (st st' : ScanState) (h : runStep p n o r st = .next st') :
    st'.latestStableRelease = st.latestStableRelease ∧
    st'.latestUnstableRelease =
      (if r.prerelease = true then st.latestUnstableRelease
       else keepFirst st.latestUnstableRelease (some r)) ∧
    (r.prerelease = true → st' = st) := by
  rcases runStep_cases p n o r st with
    ⟨h1, he⟩ | ⟨h1, h2, he⟩ | ⟨t, h1, h2, h3, h4, he⟩ | ⟨t, h1, h2, h3, h4, he⟩ |
    ⟨t, h1, h2, h3, h4, h5, he⟩ | ⟨t, h1, h2, h3, h4, h5, h6, he⟩ |
    ⟨t, c, h1, h2, h3, h4, h5, h6, h7, he⟩ | ⟨t, c, h1, h2, h3, h4, h5, h6, h7, he⟩ <;>
    rw [he] at h <;> cases h <;> simp [h1]

/-- Facts available when an iteration breaks the scan. -/
theorem runStep_stop_facts (p : String → Option Int) (n : Int) (o : String → Option Nat)
    (r : releaseJson) (st st' : ScanState) (h : runStep p n o r st = .stop st') :
    r.prerelease = false ∧ st'.latestStableRelease = some r ∧
    st'.latestUnstableRelease = keepFirst st.latestUnstableRelease (some r) := by
  rcases runStep_cases p n o r st with
    ⟨h1, he⟩ | ⟨h1, h2, he⟩ | ⟨t, h1, h2, h3, h4, he⟩ | ⟨t, h1, h2, h3, h4, he⟩ |
    ⟨t, h1, h2, h3, h4, h5, he⟩ | ⟨t, h1, h2, h3, h4, h5, h6, he⟩ |
    ⟨t, c, h1, h2, h3, h4, h5, h6, h7, he⟩ | ⟨t, c, h1, h2, h3, h4, h5, h6, h7, he⟩ <;>
    rw [he] at h <;> cases h <;> simp [h1]

/-- Facts available when an iteration aborts the run. -/
theorem runStep_fail_facts (p : String → Option Int) (n : Int) (o : String → Option Nat)
    (r : releaseJson) (st st' : ScanState) (e : RunError)
    (h : runStep p n o r st = .fail st' e) :
    r.prerelease = false ∧ st'.latestStableRelease = st.latestStableRelease ∧
    st'.latestUnstableRelease = keepFirst st.latestUnstableRelease (some r) := by
  rcases runStep_cases p n o r st with
    ⟨h1, he⟩ | ⟨h1, h2, he⟩ | ⟨t, h1, h2, h3, h4, he⟩ | ⟨t, h1, h2, h3, h4, he⟩ |
    ⟨t, h1, h2, h3, h4, h5, he⟩ | ⟨t, h1, h2, h3, h4, h5, h6, he⟩ |
    ⟨t, c, h1, h2, h3, h4, h5, h6, h7, he⟩ | ⟨t, c, h1, h2, h3, h4, h5, h6, h7, he⟩ <;>
    rw [he] at h <;> cases h <;> simp [h1]

/-- The final `latestUnstableRelease` is the first non-prerelease of the feed
(first-write-wins against whatever the state already holds), whether the scan
completes, breaks, or aborts. -/
theorem runScan_unstable (p : String → Option Int) (n : Int) (o : String → Option Nat) :
    ∀ (rs : List releaseJson) (st : ScanState),
    (runScan p n o rs st).1.latestUnstableRelease =
      keepFirst st.latestUnstableRelease (rs.find? fun r => !r.prerelease)
  | [], st => by
    cases h : st.latestUnstableRelease <;> simp [runScan, keepFirst, h]
  | r :: rest, st => by
    cases hstep : runStep p n o r st with
    | next st2 =>
      obtain ⟨-, hu, -⟩ := runStep_next_facts p n o r st st2 hstep
      by_cases hpre : r.prerelease = true
      · rw [if_pos hpre] at hu
        simp only [runScan, hstep]
        rw [runScan_unstable p n o rest st2, hu,
          List.find?_cons_of_neg _ (by simp [hpre])]
      · rw [if_neg hpre] at hu
        rw [Bool.not_eq_true] at hpre
        simp only [runScan, hstep]
        rw [runScan_unstable p n o rest st2, hu,
          List.find?_cons_of_pos _ (by simp [hpre]),
          keepFirst_of_some_right]
    | stop st2 =>
      obtain ⟨hpre, -, hu⟩ := runStep_stop_facts p n o r st st2 hstep
      simp only [runScan, hstep]
      rw [hu, List.find?_cons_of_pos _ (by simp [hpre])]
    | fail st2 e =>
      obtain ⟨hpre, -, hu⟩ := runStep_fail_facts p n o r st st2 e hstep
      simp only [runScan, hstep]
      rw [hu, List.find?_cons_of_pos _ (by simp [hpre])]

/-- Single-shot ordering invariant: the fallback and stable candidates are
only ever written after the unstable candidate. -/
theorem runScan_inv (p : String → Option Int) (n : Int) (o : String → Option Nat) :
    ∀ (rs : List releaseJson) (st : ScanState),
    (st.latestUnstableRelease = none → st.fallbackRelease = none ∧ st.latestStableRelease = none) →
    ((runScan p n o rs st).1.latestUnstableRelease = none →
      (runScan p n o rs st).1.fallbackRelease = none ∧
      (runScan p n o rs st).1.latestStableRelease = none)
  | [], st, hP => by simpa [runScan] using hP
  | r :: rest, st, hP => by
    cases hstep : runStep p n o r st with
    | next st2 =>
      obtain ⟨hs, hu, hid⟩ := runStep_next_facts p n o r st st2 hstep
      simp only [runScan, hstep]
      refine runScan_inv p n o rest st2 ?_
      intro h2
      by_cases hpre : r.prerelease = true
      · rw [hid hpre] at h2 ⊢
        exact hP h2
      · rw [if_neg hpre] at hu
        rw [hu] at h2
        have := keepFirst_some_right_isSome st.latestUnstableRelease r
        rw [h2] at this
        simp at this
    | stop st2 =>
      obtain ⟨-, -, hu⟩ := runStep_stop_facts p n o r st st2 hstep
      simp only [runScan, hstep]
      intro h2
      rw [hu] at h2
      have := keepFirst_some_right_isSome st.latestUnstableRelease r
      rw [h2] at this
      simp at this
    | fail st2 e =>
      obtain ⟨-, -, hu⟩ := runStep_fail_facts p n o r st st2 e hstep
      simp only [runScan, hstep]
      intro h2
      rw [hu] at h2
      have := keepFirst_some_right_isSome st.latestUnstableRelease r
      rw [h2] at this
      simp at this

/-- A scan that completes without breaking (final stable candidate still
unset) continues into any appended suffix from its final state. -/
theorem runScan_append (p : String → Option Int) (n : Int) (o : String → Option Nat) :
    ∀ (rs ys : List releaseJson) (st st' : ScanState),
    runScan p n o rs st = (st', none) → st'.latestStableRelease = none →
    runScan p n o (rs ++ ys) st = runScan p n o ys st'
  | [], ys, st, st', h, hs => by
    simp only [runScan] at h
    cases h
    rfl
  | r :: rest, ys, st, st', h, hs => by
    cases hstep : runStep p n o r st with
    | next st2 =>
      simp only [runScan, hstep] at h ⊢
      exact runScan_append p n o rest ys st2 st' h hs
    | stop st2 =>
      obtain ⟨-, hstable, -⟩ := runStep_stop_facts p n o r st st2 hstep
      simp only [runScan, hstep] at h
      cases h
      rw [hstable] at hs
      cases hs
    | fail st2 e =>
      simp only [runScan, hstep] at h
      cases h

/-- Once the scan breaks at a stable candidate, appending further releases
changes nothing at all (state, query log and outcome are identical). -/
theorem runScan_stop_append (p : String → Option Int) (n : Int) (o : String → Option Nat) :
    ∀ (rs ys : List releaseJson) (st : ScanState),
    st.latestStableRelease = none →
    (runScan p n o rs st).1.latestStableRelease.isSome = true →
    runScan p n o (rs ++ ys) st = runScan p n o rs st
  | [], ys, st, h0, hs => by
    rw [runScan] at hs
    rw [h0] at hs
    cases hs
  | r :: rest, ys, st, h0, hs => by
    cases hstep : runStep p n o r st with
    | next st2 =>
      obtain ⟨hstable, -, -⟩ := runStep_next_facts p n o r st st2 hstep
      simp only [runScan, hstep] at hs ⊢
      exact runScan_stop_append p n o rest ys st2 (hstable.trans h0) hs
    | stop st2 =>
      simp only [runScan, hstep]
    | fail st2 e =>
      simp only [runScan, hstep]

end EqemuPack

namespace EqemuPack

@[simp] theorem keepFirst_none_right {α : Type} (a : Option α) : keepFirst a none = a := by
  cases a <;> rfl

/-- Characterization of the ghost query log: the queries issued during a scan
extend the log by a list of (release, string) pairs whose releases form a
subsequence of the feed, each queried with its `v`-stripped tag, and each a
non-prerelease, at least 7 days old, with a fix-advertising changelog. -/
theorem runScan_queries (p : String → Option Int) (n : Int) (o : String → Option Nat) :
    ∀ (rs : List releaseJson) (st : ScanState), ∃ L,
    (runScan p n o rs st).1.oracleQueries = st.oracleQueries ++ L ∧
    List.Sublist (L.map Prod.fst) rs ∧
    ∀ pr ∈ L, pr.2 = stripAllV pr.1.tagName ∧ pr.1.prerelease = false ∧
      goContains pr.1.body "Fix" = true ∧
      ∃ t, p pr.1.publishedAt = some t ∧ ¬ n - t < 7 * dayNs
  | [], st => ⟨[], by simp [runScan], List.nil_sublist _, by simp⟩
  | r :: rest, st => by
    rcases runStep_cases p n o r st with
      ⟨h1, he⟩ | ⟨h1, h2, he⟩ | ⟨t, h1, h2, h3, h4, he⟩ | ⟨t, h1, h2, h3, h4, he⟩ |
      ⟨t, h1, h2, h3, h4, h5, he⟩ | ⟨t, h1, h2, h3, h4, h5, h6, he⟩ |
      ⟨t, c, h1, h2, h3, h4, h5, h6, h7, he⟩ | ⟨t, c, h1, h2, h3, h4, h5, h6, h7, he⟩
    · obtain ⟨L, hq, hsub, hcond⟩ := runScan_queries p n o rest st
      exact ⟨L, by simp only [runScan, he]; exact hq, List.Sublist.cons r hsub, hcond⟩
    · exact ⟨[], by simp [runScan, he], List.nil_sublist _, by simp⟩
    · obtain ⟨L, hq, hsub, hcond⟩ := runScan_queries p n o rest (setLast t (captureUnstable r st))
      exact ⟨L, by simp only [runScan, he]; rw [hq]; simp,
        List.Sublist.cons r hsub, hcond⟩
    · obtain ⟨L, hq, hsub, hcond⟩ :=
        runScan_queries p n o rest (setLast t (captureFallback n t r (captureUnstable r st)))
      exact ⟨L, by simp only [runScan, he]; rw [hq]; simp,
        List.Sublist.cons r hsub, hcond⟩
    · obtain ⟨L, hq, hsub, hcond⟩ :=
        runScan_queries p n o rest (setLast t (captureFallback n t r (captureUnstable r st)))
      exact ⟨L, by simp only [runScan, he]; rw [hq]; simp,
        List.Sublist.cons r hsub, hcond⟩
    · refine ⟨[(r, stripAllV r.tagName)], by simp [runScan, he], ?_, ?_⟩
      · simpa using List.Sublist.cons₂ r (List.nil_sublist rest)
      · intro pr hpr
        rw [List.mem_singleton] at hpr
        subst hpr
        exact ⟨rfl, h1, h5, t, h2, h4⟩
    · obtain ⟨L, hq, hsub, hcond⟩ := runScan_queries p n o rest
        (logQuery r (stripAllV r.tagName) (setLast t (captureFallback n t r (captureUnstable r st))))
      refine ⟨(r, stripAllV r.tagName) :: L, ?_, ?_, ?_⟩
      · simp only [runScan, he]
        rw [hq]
        simp
      · simpa using List.Sublist.cons₂ r hsub
      · intro pr hpr
        rcases List.mem_cons.mp hpr with hpr | hpr
        · subst hpr
          exact ⟨rfl, h1, h5, t, h2, h4⟩
        · exact hcond pr hpr
    · refine ⟨[(r, stripAllV r.tagName)], by simp [runScan, he], ?_, ?_⟩
      · simpa using List.Sublist.cons₂ r (List.nil_sublist rest)
      · intro pr hpr
        rw [List.mem_singleton] at hpr
        subst hpr
        exact ⟨rfl, h1, h5, t, h2, h4⟩

end EqemuPack

namespace EqemuPack

/-- When every release fails one of filters 1 (prerelease), 6 (freshness),
7 (changelog), 8 (oracle positive) and every timestamp parses, the scan
completes with no error, never sets a stable candidate, and its fallback is
the first release reaching the fallback check that is over 30 days old. -/
theorem runScan_all_fail (p : String → Option Int) (n : Int) (o : String → Option Nat) :
    ∀ (rs : List releaseJson) (st : ScanState),
    (∀ x ∈ rs, (p x.publishedAt).isSome = true) →
    (∀ x ∈ rs, fails1678 p n o x = true) →
    (runScan p n o rs st).2 = none ∧
    (runScan p n o rs st).1.latestStableRelease = st.latestStableRelease ∧
    (runScan p n o rs st).1.fallbackRelease =
      keepFirst st.fallbackRelease (firstFallback p n rs st.lastReleasePublishDate)
  | [], st, _, _ => by simp [runScan, firstFallback]
  | r :: rest, st, hparse, hfail => by
    have hpr : ∀ x ∈ rest, (p x.publishedAt).isSome = true :=
      fun x hx => hparse x (List.mem_cons_of_mem r hx)
    have hfr : ∀ x ∈ rest, fails1678 p n o x = true :=
      fun x hx => hfail x (List.mem_cons_of_mem r hx)
    have hfhead := hfail r (List.mem_cons_self r rest)
    rcases runStep_cases p n o r st with
      ⟨h1, he⟩ | ⟨h1, h2, he⟩ | ⟨t, h1, h2, h3, h4, he⟩ | ⟨t, h1, h2, h3, h4, he⟩ |
      ⟨t, h1, h2, h3, h4, h5, he⟩ | ⟨t, h1, h2, h3, h4, h5, h6, he⟩ |
      ⟨t, c, h1, h2, h3, h4, h5, h6, h7, he⟩ | ⟨t, c, h1, h2, h3, h4, h5, h6, h7, he⟩
    · obtain ⟨ih1, ih2, ih3⟩ := runScan_all_fail p n o rest st hpr hfr
      refine ⟨by simp only [runScan, he]; exact ih1,
        by simp only [runScan, he]; exact ih2, ?_⟩
      simp only [runScan, he]
      rw [ih3]
      simp [firstFallback, h1]
    · have := hparse r (List.mem_cons_self r rest)
      rw [h2] at this
      simp at this
    · obtain ⟨ih1, ih2, ih3⟩ :=
        runScan_all_fail p n o rest (setLast t (captureUnstable r st)) hpr hfr
      refine ⟨by simp only [runScan, he]; exact ih1,
        by simp only [runScan, he]; rw [ih2]; simp, ?_⟩
      simp only [runScan, he]
      rw [ih3]
      simp only [setLast_fallback, captureUnstable_fallback, setLast_last]
      simp only [firstFallback, h1, Bool.false_eq_true, if_false, h2]
      rw [if_pos ⟨h3, h4⟩]
    · obtain ⟨ih1, ih2, ih3⟩ :=
        runScan_all_fail p n o rest (setLast t (captureFallback n t r (captureUnstable r st))) hpr hfr
      refine ⟨by simp only [runScan, he]; exact ih1,
        by simp only [runScan, he]; rw [ih2]; simp, ?_⟩
      simp only [runScan, he]
      rw [ih3]
      simp only [setLast_fallback, setLast_last]
      simp only [firstFallback, h1, Bool.false_eq_true, if_false, h2]
      rw [if_neg h3]
      cases hf : st.fallbackRelease with
      | some f =>
        rw [captureFallback_fallback_of_some n t r _ f (by simp [hf])]
        simp
      | none =>
        by_cases h30 : n - t > 30 * dayNs
        · rw [captureFallback_fallback_pos n t r _ (by simp [hf]) h30]
          rw [if_pos h30]
          simp
        · rw [captureFallback_fallback_neg n t r _ h30]
          rw [if_neg h30]
          simp [hf]
    · obtain ⟨ih1, ih2, ih3⟩ :=
        runScan_all_fail p n o rest (setLast t (captureFallback n t r (captureUnstable r st))) hpr hfr
      refine ⟨by simp only [runScan, he]; exact ih1,
        by simp only [runScan, he]; rw [ih2]; simp, ?_⟩
      simp only [runScan, he]
      rw [ih3]
      simp only [setLast_fallback, setLast_last]
      simp only [firstFallback, h1, Bool.false_eq_true, if_false, h2]
      rw [if_neg h3]
      cases hf : st.fallbackRelease with
      | some f =>
        rw [captureFallback_fallback_of_some n t r _ f (by simp [hf])]
        simp
      | none =>
        by_cases h30 : n - t > 30 * dayNs
        · rw [captureFallback_fallback_pos n t r _ (by simp [hf]) h30]
          rw [if_pos h30]
          simp
        · rw [captureFallback_fallback_neg n t r _ h30]
          rw [if_neg h30]
          simp [hf]
    · rw [fails1678, h1, h2] at hfhead
      simp only [Bool.false_or] at hfhead
      rw [h5, h6] at hfhead
      simp [h4] at hfhead
    · obtain ⟨ih1, ih2, ih3⟩ :=
        runScan_all_fail p n o rest
          (logQuery r (stripAllV r.tagName) (setLast t (captureFallback n t r (captureUnstable r st)))) hpr hfr
      refine ⟨by simp only [runScan, he]; exact ih1,
        by simp only [runScan, he]; rw [ih2]; simp, ?_⟩
      simp only [runScan, he]
      rw [ih3]
      simp only [logQuery_fallback, logQuery_last, setLast_fallback, setLast_last]
      simp only [firstFallback, h1, Bool.false_eq_true, if_false, h2]
      rw [if_neg h3]
      cases hf : st.fallbackRelease with
      | some f =>
        rw [captureFallback_fallback_of_some n t r _ f (by simp [hf])]
        simp
      | none =>
        by_cases h30 : n - t > 30 * dayNs
        · rw [captureFallback_fallback_pos n t r _ (by simp [hf]) h30]
          rw [if_pos h30]
          simp
        · rw [captureFallback_fallback_neg n t r _ h30]
          rw [if_neg h30]
          simp [hf]
    · rw [fails1678, h1, h2] at hfhead
      simp only [Bool.false_or] at hfhead
      rw [h5, h6] at hfhead
      simp [h4, h7] at hfhead

end EqemuPack

namespace EqemuPack

/-- The seen-set loop adds to `count` the number of distinct names in the
payload not already seen. -/
theorem errorCountLoop_card :
    ∀ (payloads : List errorCountJson) (servers : List String) (count : Nat),
    errorCountLoop payloads servers count =
      count + ((payloads.map fun x => x.serverName).toFinset \ servers.toFinset).card
  | [], servers, count => by simp [errorCountLoop]
  | payload :: rest, servers, count => by
    by_cases hmem : payload.serverName ∈ servers
    · rw [errorCountLoop, if_pos hmem, errorCountLoop_card rest servers count]
      have hset : ((payload :: rest).map fun x => x.serverName).toFinset \ servers.toFinset =
          (rest.map fun x => x.serverName).toFinset \ servers.toFinset := by
        ext a
        simp only [List.map_cons, List.toFinset_cons, Finset.mem_sdiff, Finset.mem_insert,
          List.mem_toFinset]
        constructor
        · rintro ⟨h | h, hns⟩
          · exact absurd (h ▸ hmem) hns
          · exact ⟨h, hns⟩
        · rintro ⟨h, hns⟩
          exact ⟨Or.inr h, hns⟩
      rw [hset]
    · rw [errorCountLoop, if_neg hmem,
        errorCountLoop_card rest (payload.serverName :: servers) (count + 1)]
      have h1 : ((payload :: rest).map fun x => x.serverName).toFinset \ servers.toFinset =
          insert payload.serverName
            ((rest.map fun x => x.serverName).toFinset \ servers.toFinset) := by
        ext a
        simp only [List.map_cons, List.toFinset_cons, Finset.mem_sdiff, Finset.mem_insert,
          List.mem_toFinset]
        constructor
        · rintro ⟨h | h, hns⟩
          · exact Or.inl h
          · exact Or.inr ⟨h, hns⟩
        · rintro (h | ⟨h, hns⟩)
          · exact ⟨Or.inl h, h ▸ (by simpa [List.mem_toFinset] using hmem)⟩
          · exact ⟨Or.inr h, hns⟩
      have h2 : (rest.map fun x => x.serverName).toFinset \
            (payload.serverName :: servers).toFinset =
          ((rest.map fun x => x.serverName).toFinset \ servers.toFinset).erase
            payload.serverName := by
        ext a
        simp only [List.toFinset_cons, Finset.mem_sdiff, Finset.mem_insert, Finset.mem_erase,
          List.mem_toFinset]
        constructor
        · rintro ⟨h, hns⟩
          push_neg at hns
          exact ⟨hns.1, h, hns.2⟩
        · rintro ⟨hne, h, hns⟩
          exact ⟨h, by simp [hne, hns]⟩
      rw [h1, h2]
      by_cases hA : payload.serverName ∈ (rest.map fun x => x.serverName).toFinset \ servers.toFinset
      · rw [Finset.card_insert_of_mem hA]
        have := Finset.card_erase_add_one hA
        omega
      · rw [Finset.card_insert_of_not_mem hA, Finset.erase_eq_of_not_mem hA]
        omega

/-- Moving the `lastReleasePublishDate` write before the fallback capture
does not change the state: the capture reads and writes other fields. -/
theorem captureFallback_setLast (n t pub : Int) (r : releaseJson) (st : ScanState) :
    captureFallback n t r (setLast pub st) = setLast pub (captureFallback n t r st) := by
  by_cases h : st.fallbackRelease.isNone ∧ n - t > 30 * dayNs
  · simp only [captureFallback, setLast_fallback]
    rw [if_pos h, if_pos h]
    rfl
  · simp only [captureFallback, setLast_fallback]
    rw [if_neg h, if_neg h]

/-- The single-update loop body computes exactly the original loop body. -/
theorem runStepOnce_eq (p : String → Option Int) (n : Int) (o : String → Option Nat)
    (r : releaseJson) (st : ScanState) :
    runStepOnce p n o r st = runStep p n o r st := by
  by_cases h1 : r.prerelease = true
  · simp [runStepOnce, runStep, h1]
  · rw [Bool.not_eq_true] at h1
    cases h2 : p r.publishedAt with
    | none => simp [runStepOnce, runStep, h1, h2]
    | some t =>
      simp only [runStepOnce, runStep, h1, Bool.false_eq_true, if_false, h2,
        captureUnstable_last, setLast_last]
      rw [captureFallback_setLast]

/-- The single-update scan computes exactly the original scan. -/
theorem runScanOnce_eq (p : String → Option Int) (n : Int) (o : String → Option Nat) :
    ∀ (rs : List releaseJson) (st : ScanState),
    runScanOnce p n o rs st = runScan p n o rs st
  | [], _ => rfl
  | r :: rest, st => by
    simp only [runScanOnce, runScan, runStepOnce_eq]
    cases hstep : runStep p n o r st with
    | next st2 => exact runScanOnce_eq p n o rest st2
    | stop st2 => rfl
    | fail st2 e => rfl

/-- The single-update selector computes exactly the original selector. -/
theorem runOnce_eq (p : String → Option Int) (n : Int) (o : String → Option Nat)
    (rs : List releaseJson) : runOnce p n o rs = run p n o rs := by
  rw [runOnce, run, runScanOnce_eq]

end EqemuPack

namespace EqemuPack

/-- `finishRun` written with `keepFirst` for the stable-or-fallback choice. -/
theorem finishRun_eq (st : ScanState) :
    finishRun st =
      match keepFirst st.latestStableRelease st.fallbackRelease with
      | none => .error .noReleasesFound
      | some stable =>
        match st.latestUnstableRelease with
        | none => .error .nilDereference
        | some unstable => .ok { unstableTag := unstable.tagName, stableTag := stable.tagName } := by
  cases hs : st.latestStableRelease <;> cases hu : st.latestUnstableRelease <;>
    simp [finishRun, keepFirst, hs, hu]

/-- Inversion of a successful `finishRun`. -/
theorem finishRun_ok (st : ScanState) (res : SelectionResult) (h : finishRun st = .ok res) :
    ∃ u s, st.latestUnstableRelease = some u ∧
      keepFirst st.latestStableRelease st.fallbackRelease = some s ∧
      res.unstableTag = u.tagName ∧ res.stableTag = s.tagName := by
  rw [finishRun_eq] at h
  cases h2 : keepFirst st.latestStableRelease st.fallbackRelease with
  | none => rw [h2] at h; cases h
  | some s =>
    rw [h2] at h
    cases h3 : st.latestUnstableRelease with
    | none => rw [h3] at h; cases h
    | some u =>
      rw [h3] at h
      cases h
      exact ⟨u, s, rfl, rfl, rfl, rfl⟩

/-- With neither a stable candidate nor a fallback, the run fails. -/
theorem finishRun_none (st : ScanState) (h1 : st.latestStableRelease = none)
    (h2 : st.fallbackRelease = none) : finishRun st = .error .noReleasesFound := by
  rw [finishRun_eq, h1, h2]
  rfl

/-- With a stable-or-fallback candidate and an unstable candidate, the run
produces the two tags. -/
theorem finishRun_some (st : ScanState) (u s : releaseJson)
    (hu : st.latestUnstableRelease = some u)
    (hs : keepFirst st.latestStableRelease st.fallbackRelease = some s) :
    finishRun st = .ok { unstableTag := u.tagName, stableTag := s.tagName } := by
  rw [finishRun_eq, hs, hu]

/-- A feed of prereleases only is scanned without touching any state. -/
theorem runScan_all_prerelease (p : String → Option Int) (n : Int) (o : String → Option Nat) :
    ∀ (rs : List releaseJson) (st : ScanState),
    (∀ r ∈ rs, r.prerelease = true) → runScan p n o rs st = (st, none)
  | [], _, _ => rfl
  | r :: rest, st, h => by
    rw [runScan, runStep_prerelease p n o r st (h r (List.mem_cons_self r rest))]
    exact runScan_all_prerelease p n o rest st fun x hx => h x (List.mem_cons_of_mem r hx)

/-- The loop body aborts only with a parse or an oracle error. -/
theorem runStep_fail_error (p : String → Option Int) (n : Int) (o : String → Option Nat)
    (r : releaseJson) (st st' : ScanState) (e : RunError)
    (h : runStep p n o r st = .fail st' e) :
    e = .malformedTimestamp ∨ e = .oracleUnavailable := by
  rcases runStep_cases p n o r st with
    ⟨h1, he⟩ | ⟨h1, h2, he⟩ | ⟨t, h1, h2, h3, h4, he⟩ | ⟨t, h1, h2, h3, h4, he⟩ |
    ⟨t, h1, h2, h3, h4, h5, he⟩ | ⟨t, h1, h2, h3, h4, h5, h6, he⟩ |
    ⟨t, c, h1, h2, h3, h4, h5, h6, h7, he⟩ | ⟨t, c, h1, h2, h3, h4, h5, h6, h7, he⟩ <;>
    rw [he] at h <;> cases h <;> simp

/-- The scan aborts only with a parse or an oracle error. -/
theorem runScan_fail_error (p : String → Option Int) (n : Int) (o : String → Option Nat) :
    ∀ (rs : List releaseJson) (st st' : ScanState) (e : RunError),
    runScan p n o rs st = (st', some e) →
    e = .malformedTimestamp ∨ e = .oracleUnavailable
  | [], st, st', e, h => by
    rw [runScan] at h
    cases h
  | r :: rest, st, st', e, h => by
    cases hstep : runStep p n o r st with
    | next st2 =>
      rw [runScan, hstep] at h
      exact runScan_fail_error p n o rest st2 st' e h
    | stop st2 =>
      rw [runScan, hstep] at h
      cases h
    | fail st2 e2 =>
      rw [runScan, hstep] at h
      cases h
      exact runStep_fail_error p n o r st _ _ hstep

end EqemuPack

namespace EqemuPack

/-- Claim C1: for every feed processed in feed order, the unstable candidate
equals the first release whose `prerelease` flag is false (captured once,
before any later filter can disqualify it), is absent when every release is a
prerelease or the feed is empty, and on success the unstable half of the
result is that release's tag. -/
theorem claim1_unstable_candidate (p : String → Option Int) (n : Int) (o : String → Option Nat)
    (rs : List releaseJson) :
    (runScan p n o rs initState).1.latestUnstableRelease =
      rs.find? (fun r => !r.prerelease) ∧
    ∀ res, run p n o rs = .ok res →
      ∃ u, rs.find? (fun r => !r.prerelease) = some u ∧ res.unstableTag = u.tagName := by
  have hu : (runScan p n o rs initState).1.latestUnstableRelease =
      rs.find? (fun r => !r.prerelease) := by
    have h := runScan_unstable p n o rs initState
    rw [show initState.latestUnstableRelease = none from rfl, keepFirst_none] at h
    exact h
  refine ⟨hu, ?_⟩
  intro res hres
  rw [run] at hres
  cases hscan : runScan p n o rs initState with
  | mk st err =>
    rw [hscan] at hres hu
    cases err with
    | some e => simp at hres
    | none =>
      obtain ⟨u, s, hust, -, hid, -⟩ := finishRun_ok st res hres
      exact ⟨u, by rw [← hu]; exact hust, hid⟩

/-- Witness for C1 at a concrete feed: the prerelease is passed over and the
unstable half of the result is the first non-prerelease's tag. -/
theorem claim1_unstable_candidate_witness :
    ∃ u, ([relP, relR].find? (fun r => !r.prerelease)) = some u ∧
      (SelectionResult.mk "v2.9" "v2.9").unstableTag = u.tagName :=
  (claim1_unstable_candidate parseC nowC oracleC [relP, relR]).2
    { unstableTag := "v2.9", stableTag := "v2.9" } rfl

/-- Claim C3: once a release is set as the stable candidate the scan
terminates immediately: appending arbitrary releases after the feed changes
neither the scan (state and ghost query log included) nor the result. -/
theorem claim3_early_termination (p : String → Option Int) (n : Int) (o : String → Option Nat)
    (rs extra : List releaseJson)
    (h : (runScan p n o rs initState).1.latestStableRelease.isSome = true) :
    runScan p n o (rs ++ extra) initState = runScan p n o rs initState ∧
    run p n o (rs ++ extra) = run p n o rs := by
  have hs := runScan_stop_append p n o rs extra initState rfl h
  exact ⟨hs, by rw [run, run, hs]⟩

/-- Witness for C3 at a concrete feed where the first release is chosen as
stable: appending a further release changes nothing. -/
theorem claim3_early_termination_witness :
    (runScan parseC nowC oracleC [relGood] initState).1.latestStableRelease.isSome = true ∧
    run parseC nowC oracleC ([relGood] ++ [relR]) = run parseC nowC oracleC [relGood] :=
  ⟨by decide,
    (claim3_early_termination parseC nowC oracleC [relGood] [relR] (by decide)).2⟩

/-- Claim C4: replacing the two updates of `lastReleasePublishDate` with a
single update per non-prerelease release visited, using that release's parsed
`publishedAt`, yields the same scan and the same selection result for every
feed, every `now` and every oracle. -/
theorem claim4_single_update (p : String → Option Int) (n : Int) (o : String → Option Nat)
    (rs : List releaseJson) :
    runScanOnce p n o rs initState = runScan p n o rs initState ∧
    runOnce p n o rs = run p n o rs :=
  ⟨runScanOnce_eq p n o rs initState, runOnce_eq p n o rs⟩

end EqemuPack

namespace EqemuPack

/-- Counterexample to C2 as stated: in the feed `[relP, relR]` no release
passes filters 1,6,7,8, and the first release of the feed whose age exceeds
30 days is the prerelease `relP` — but the prerelease filter runs before the
fallback capture, so the result's stable tag is `relR`'s, not `relP`'s. -/
theorem claim2_fallback_counterexample :
    [relP, relR].all (fails1678 parseC nowC oracleC) = true ∧
    firstOlderThan30 parseC nowC [relP, relR] = some relP ∧
    run parseC nowC oracleC [relP, relR] =
      .ok { unstableTag := "v2.9", stableTag := "v2.9" } ∧
    relP.tagName ≠ "v2.9" :=
  ⟨by decide, by decide, rfl, by decide⟩

/-- Claim C2 (amended): when every release fails one of filters 1,6,7,8 (and
every timestamp parses, failures at the oracle being positive counts), the
stable tag is the tag of the first release reaching the fallback check — the
first non-prerelease, not skipped by the spacing filter, older than 30
days — and the run fails with `noReleasesFound` when no such release exists. -/
theorem claim2_fallback_amended (p : String → Option Int) (n : Int) (o : String → Option Nat)
    (rs : List releaseJson)
    (hparse : ∀ x ∈ rs, (p x.publishedAt).isSome = true)
    (hfail : ∀ x ∈ rs, fails1678 p n o x = true) :
    match firstFallback p n rs 0 with
    | some f => ∃ res, run p n o rs = .ok res ∧ res.stableTag = f.tagName
    | none => run p n o rs = .error .noReleasesFound := by
  obtain ⟨h1, h2, h3⟩ := runScan_all_fail p n o rs initState hparse hfail
  rw [show initState.latestStableRelease = none from rfl] at h2
  rw [show initState.fallbackRelease = none from rfl, keepFirst_none,
    show initState.lastReleasePublishDate = (0 : Int) from rfl] at h3
  cases hscan : runScan p n o rs initState with
  | mk st err =>
    rw [hscan] at h1 h2 h3
    simp only at h1 h2 h3
    subst h1
    have hrun : run p n o rs = finishRun st := by rw [run, hscan]
    have hinv := runScan_inv p n o rs initState (fun _ => ⟨rfl, rfl⟩)
    rw [hscan] at hinv
    simp only at hinv
    cases hff : firstFallback p n rs 0 with
    | none =>
      simp only [hff]
      rw [hff] at h3
      rw [hrun]
      exact finishRun_none st h2 h3
    | some f =>
      simp only [hff]
      rw [hff] at h3
      cases hu : st.latestUnstableRelease with
      | none =>
        obtain ⟨hf0, -⟩ := hinv hu
        rw [hf0] at h3
        cases h3
      | some u =>
        refine ⟨{ unstableTag := u.tagName, stableTag := f.tagName }, ?_, rfl⟩
        rw [hrun]
        exact finishRun_some st u f hu (by rw [h2, keepFirst_none, h3])

/-- Witness for the amended C2: a single 40-day-old non-prerelease with no
fix in its changelog fails filter 7, and is itself the fallback. -/
theorem claim2_fallback_amended_witness :
    (∀ x ∈ [relR], (parseC x.publishedAt).isSome = true) ∧
    (∀ x ∈ [relR], fails1678 parseC nowC oracleC x = true) ∧
    ∃ res, run parseC nowC oracleC [relR] = .ok res ∧ res.stableTag = "v2.9" := by
  refine ⟨by decide, by decide, ?_⟩
  have h := claim2_fallback_amended parseC nowC oracleC [relR] (by decide) (by decide)
  have hff : firstFallback parseC nowC [relR] 0 = some relR := by decide
  rw [hff] at h
  exact h

/-- Counterexample to C5 as stated: the feed `[relPbad, relR]` contains a
release whose `publishedAt` does not parse, yet the run succeeds — the
prerelease filter skips `relPbad` before its timestamp is ever parsed. -/
theorem claim5_malformed_counterexample :
    parseC relPbad.publishedAt = none ∧ relPbad ∈ [relPbad, relR] ∧
    run parseC nowC oracleC [relPbad, relR] =
      .ok { unstableTag := "v2.9", stableTag := "v2.9" } :=
  ⟨by decide, by decide, rfl⟩

/-- Claim C5 (amended): when the scan reaches a non-prerelease release whose
`publishedAt` fails to parse (the preceding feed segment completing without a
stable pick and without error), the run aborts with `malformedTimestamp` and
produces no result. -/
theorem claim5_malformed_amended (p : String → Option Int) (n : Int) (o : String → Option Nat)
    (pre rest : List releaseJson) (r : releaseJson) (st : ScanState)
    (h1 : r.prerelease = false) (h2 : p r.publishedAt = none)
    (h3 : runScan p n o pre initState = (st, none)) (h4 : st.latestStableRelease = none) :
    run p n o (pre ++ r :: rest) = .error .malformedTimestamp := by
  have happ := runScan_append p n o pre (r :: rest) initState st h3 h4
  rw [run, happ, runScan, runStep_parseFail p n o r st h1 h2]

/-- Witness for the amended C5: a feed whose first release is a
non-prerelease with an unparseable timestamp aborts the run. -/
theorem claim5_malformed_amended_witness :
    relBad.prerelease = false ∧ parseC relBad.publishedAt = none ∧
    run parseC nowC oracleC ([] ++ relBad :: []) = .error .malformedTimestamp :=
  ⟨by decide, by decide,
    claim5_malformed_amended parseC nowC oracleC [] [] relBad initState (by decide)
      (by decide) rfl rfl⟩

/-- Counterexample to C6 as stated: for the 5-day-old single release `rel5`
the run fails with `noReleasesFound` and produces no result at all — the
unstable candidate was captured in the scan state, but the unstable half is
never produced. -/
theorem claim6_scenario2_counterexample :
    run parseC nowC oracleC [rel5] = .error .noReleasesFound ∧
    (run parseC nowC oracleC [rel5]).toOption = none ∧
    (runScan parseC nowC oracleC [rel5] initState).1.latestUnstableRelease = some rel5 :=
  ⟨rfl, rfl, by decide⟩

/-- Claim C6 (amended): for a feed of a single non-prerelease release aged 5
days whose body contains "Fix", the freshness filter skips it, no fallback is
captured, and the whole run fails with `noReleasesFound` — no result (hence
no unstable half) is produced, although the unstable candidate state was set
to that release. -/
theorem claim6_scenario2_amended (p : String → Option Int) (n : Int) (o : String → Option Nat)
    (r : releaseJson) (t : Int) (h1 : r.prerelease = false) (h2 : p r.publishedAt = some t)
    (h3 : n - t = 5 * dayNs) (h4 : goContains r.body "Fix" = true) :
    run p n o [r] = .error .noReleasesFound ∧
    (runScan p n o [r] initState).1.latestUnstableRelease = some r := by
  have hfresh : n - t < 7 * dayNs := by rw [h3]; decide
  have h30 : ¬ n - t > 30 * dayNs := by rw [h3]; decide
  have hskip : ¬ (initState.lastReleasePublishDate ≠ 0 ∧
      initState.lastReleasePublishDate - 3 * dayNs < t) := by
    simp [initState]
  have hstep := runStep_fresh p n o r initState t h1 h2 hskip hfresh
  have hscan : runScan p n o [r] initState =
      (setLast t (captureFallback n t r (captureUnstable r initState)), none) := by
    simp only [runScan, hstep]
  constructor
  · rw [run, hscan]
    refine finishRun_none _ (by simp [initState]) ?_
    rw [setLast_fallback, captureFallback_fallback_neg n t r _ h30]
    simp [initState]
  · rw [hscan]
    simp [initState, keepFirst]

/-- Witness for the amended C6 at the concrete release `rel5`. -/
theorem claim6_scenario2_amended_witness :
    nowC - t5 = 5 * dayNs ∧ goContains rel5.body "Fix" = true ∧
    run parseC nowC oracleC [rel5] = .error .noReleasesFound ∧
    (runScan parseC nowC oracleC [rel5] initState).1.latestUnstableRelease = some rel5 := by
  have h := claim6_scenario2_amended parseC nowC oracleC rel5 t5 (by decide) (by decide)
    (by decide) (by decide)
  exact ⟨by decide, by decide, h.1, h.2⟩

end EqemuPack

namespace EqemuPack

/-- Claim C7: every oracle query issued during a scan is for a feed release
that survived the state-free filters (non-prerelease, at least 7 days old,
fix-advertising changelog), the string passed is exactly that release's tag
with every `v` stripped, and (for a duplicate-free feed) no release is
queried twice. -/
theorem claim7_oracle_queries (p : String → Option Int) (n : Int) (o : String → Option Nat)
    (rs : List releaseJson) (hnd : rs.Nodup) :
    (∀ pr ∈ (runScan p n o rs initState).1.oracleQueries,
      pr.2 = stripAllV pr.1.tagName ∧ pr.1 ∈ rs ∧ pr.1.prerelease = false ∧
      goContains pr.1.body "Fix" = true ∧
      ∃ t, p pr.1.publishedAt = some t ∧ ¬ n - t < 7 * dayNs) ∧
    ((runScan p n o rs initState).1.oracleQueries.map Prod.fst).Nodup := by
  obtain ⟨L, hq, hsub, hcond⟩ := runScan_queries p n o rs initState
  rw [show initState.oracleQueries = [] from rfl, List.nil_append] at hq
  rw [hq]
  constructor
  · intro pr hpr
    obtain ⟨c1, c2, c3, c4⟩ := hcond pr hpr
    exact ⟨c1, hsub.subset (List.mem_map_of_mem Prod.fst hpr), c2, c3, c4⟩
  · exact List.Nodup.sublist hsub hnd

/-- Witness for C7 at a concrete feed whose single release is queried. -/
theorem claim7_oracle_queries_witness :
    List.Nodup [relGood] ∧
    ((runScan parseC nowC oracleC [relGood] initState).1.oracleQueries.map Prod.fst).Nodup :=
  ⟨by decide, (claim7_oracle_queries parseC nowC oracleC [relGood] (by decide)).2⟩

/-- Claim C8: `errorCount` returns the number of distinct `serverName` values
of the payload rows (rows repeating a seen name contribute nothing), and an
empty result set yields 0. -/
theorem claim8_distinct_count (payloads : List errorCountJson) :
    errorCount payloads = ((payloads.map fun x => x.serverName).toFinset).card ∧
    errorCount ([] : List errorCountJson) = 0 := by
  constructor
  · rw [errorCount, errorCountLoop_card payloads [] 0]
    simp
  · rfl

/-- Claim C9: a feed with no non-prerelease release (only prereleases, or
empty) makes the run fail with `noReleasesFound`; the run never hits the
modelled nil-pointer dereference; and on success the unstable candidate is
necessarily set. -/
theorem claim9_no_nonprerelease (p : String → Option Int) (n : Int) (o : String → Option Nat)
    (rs : List releaseJson) :
    ((∀ r ∈ rs, r.prerelease = true) → run p n o rs = .error .noReleasesFound) ∧
    run p n o rs ≠ .error .nilDereference ∧
    (∀ res, run p n o rs = .ok res →
      (runScan p n o rs initState).1.latestUnstableRelease.isSome = true) := by
  refine ⟨?_, ?_, ?_⟩
  · intro hall
    rw [run, runScan_all_prerelease p n o rs initState hall]
    rfl
  · intro hcontra
    rw [run] at hcontra
    cases hscan : runScan p n o rs initState with
    | mk st err =>
      rw [hscan] at hcontra
      cases err with
      | some e =>
        simp only [Except.error.injEq] at hcontra
        rcases runScan_fail_error p n o rs initState st e hscan with h | h <;>
          rw [hcontra] at h <;> cases h
      | none =>
        have hfin : finishRun st = .error .nilDereference := hcontra
        have hinv := runScan_inv p n o rs initState (fun _ => ⟨rfl, rfl⟩)
        rw [hscan] at hinv
        simp only at hinv
        cases hu : st.latestUnstableRelease with
        | none =>
          obtain ⟨hf, hs⟩ := hinv hu
          rw [finishRun_none st hs hf] at hfin
          simp at hfin
        | some u =>
          rw [finishRun_eq, hu] at hfin
          cases h2 : keepFirst st.latestStableRelease st.fallbackRelease with
          | none => rw [h2] at hfin; simp at hfin
          | some s => rw [h2] at hfin; simp at hfin
  · intro res hres
    rw [run] at hres
    cases hscan : runScan p n o rs initState with
    | mk st err =>
      rw [hscan] at hres
      cases err with
      | some e => simp at hres
      | none =>
        have hfin : finishRun st = .ok res := hres
        obtain ⟨u, -, hu, -⟩ := finishRun_ok st res hfin
        simp [hu]

/-- Witness for C9 at a concrete all-prerelease feed. -/
theorem claim9_no_nonprerelease_witness :
    (∀ r ∈ [relP], r.prerelease = true) ∧
    run parseC nowC oracleC [relP] = .error .noReleasesFound :=
  ⟨by decide, (claim9_no_nonprerelease parseC nowC oracleC [relP]).1 (by decide)⟩

/-- Claim C10: when the spacing filter skips a non-prerelease release, the
only selector state changed in that iteration is `lastReleasePublishDate`
(set to the skipped release's `publishedAt`) besides the unstable capture
that precedes the filter; the fallback and stable candidates and the query
log are untouched — in particular a skipped release older than 30 days never
becomes the fallback. -/
theorem claim10_spacing_frame (p : String → Option Int) (n : Int) (o : String → Option Nat)
    (r : releaseJson) (st : ScanState) (t : Int)
    (h1 : r.prerelease = false) (h2 : p r.publishedAt = some t)
    (h3 : st.lastReleasePublishDate ≠ 0) (h4 : st.lastReleasePublishDate - 3 * dayNs < t) :
    runStep p n o r st = .next { st with
      latestUnstableRelease := keepFirst st.latestUnstableRelease (some r),
      lastReleasePublishDate := t } ∧
    ∀ st', runStep p n o r st = .next st' →
      st'.fallbackRelease = st.fallbackRelease ∧
      st'.latestStableRelease = st.latestStableRelease ∧
      st'.oracleQueries = st.oracleQueries := by
  have he := runStep_skip p n o r st t h1 h2 h3 h4
  constructor
  · rw [he]
    cases hu : st.latestUnstableRelease <;>
      simp [setLast, captureUnstable, keepFirst, hu]
  · intro st' h
    rw [he] at h
    cases h
    simp

/-- Witness for C10: a 41-day-old release published within 3 days of the last
considered one is skipped with only the timestamp updated; despite being
older than 30 days it does not become the fallback. -/
theorem claim10_spacing_frame_witness :
    (stSkipW.lastReleasePublishDate ≠ 0 ∧ stSkipW.lastReleasePublishDate - 3 * dayNs < t41 ∧
      nowC - t41 > 30 * dayNs) ∧
    runStep parseC nowC oracleC relSkip stSkipW = .next { stSkipW with
      latestUnstableRelease := keepFirst stSkipW.latestUnstableRelease (some relSkip),
      lastReleasePublishDate := t41 } ∧
    (runStep parseC nowC oracleC relSkip stSkipW).state.fallbackRelease = none :=
  ⟨by decide,
    (claim10_spacing_frame parseC nowC oracleC relSkip stSkipW t41 (by decide) (by decide)
      (by decide) (by decide)).1,
    by decide⟩

end EqemuPack
